import Mathlib

/-!
Verification of the `lc3-rs` LC-3 virtual machine.

The development shallowly embeds the Rust sources:

* `src/bit_util.rs`    — sign extension of narrow fields and range checks;
* `src/vm/instructions.rs` — the tagged `Instruction` enum with `decode`/`encode`;
* `src/vm/machine.rs`  — the machine state and the fetch/execute loop.

Machine integers are modelled as `Nat` (for `u16` words, addresses and
`u8` bytes, with explicit `% 65536` / `% 256` where the code wraps) and
as `Int` (for `i8`/`i16` values).  Rust's `x & (2^k - 1)` on a signed
integer is written `x % 2^k` (`Int.emod`, always non-negative), and
`val | !MASK` (filling the high bits with ones) is written `val - 2^k`;
these are bit-for-bit the same operations on two's-complement integers.
Rust panics (`panic!`, `todo!`, `assert!`, `expect`) are modelled by
`Option`, a panic being `none`.
-/

namespace LC3

/-! ## `src/bit_util.rs` -/

/-- `i9_to_i16`: sign-extend the low 9 bits of `x`. -/
def i9_to_i16 (x : Int) : Int :=
  let val := x % 512
  if 256 ≤ val then val - 512 else val

/-- `i6_to_i8`: sign-extend the low 6 bits of `x`. -/
def i6_to_i8 (x : Int) : Int :=
  let val := x % 64
  if 32 ≤ val then val - 64 else val

/-- `i11_to_i16`: sign-extend the low 11 bits of `x`. -/
def i11_to_i16 (x : Int) : Int :=
  let val := x % 2048
  if 1024 ≤ val then val - 2048 else val

/-- `i5_to_i8`: sign-extend the low 5 bits of `x`. -/
def i5_to_i8 (x : Int) : Int :=
  let val := x % 32
  if 16 ≤ val then val - 32 else val

/-- `check_i9_range`: `assert!((-256..=255).contains(&x))`.
`true` means the assertion passes. -/
def check_i9_range (x : Int) : Bool :=
  decide (-256 ≤ x ∧ x ≤ 255)

/-- `check_i6_range`: `assert!((-32..=31).contains(&x))`. -/
def check_i6_range (x : Int) : Bool :=
  decide (-32 ≤ x ∧ x ≤ 31)

/-- `check_i5_range`: `assert!((-8..=7).contains(&x))`.
Note the source really checks the four-bit range `-8..=7` here. -/
def check_i5_range (x : Int) : Bool :=
  decide (-8 ≤ x ∧ x ≤ 7)

/-- `check_i11_range`: `assert!((-1024..=1023).contains(&x))`. -/
def check_i11_range (x : Int) : Bool :=
  decide (-1024 ≤ x ∧ x ≤ 1023)

/-! ## `src/vm/instructions.rs` — registers, operand newtypes -/

/-- The eight general registers. -/
inductive Register : Type
  | R0 | R1 | R2 | R3 | R4 | R5 | R6 | R7
deriving DecidableEq, Repr

/-- `Register as u16` / `as usize` — the discriminant. -/
def Register.toNat : Register → Nat
  | .R0 => 0 | .R1 => 1 | .R2 => 2 | .R3 => 3
  | .R4 => 4 | .R5 => 5 | .R6 => 6 | .R7 => 7

/-- `impl From<u16> for Register`; the `panic!("Invalid register")`
arm is `none`. -/
def Register.ofNat? : Nat → Option Register
  | 0 => some .R0
  | 1 => some .R1
  | 2 => some .R2
  | 3 => some .R3
  | 4 => some .R4
  | 5 => some .R5
  | 6 => some .R6
  | 7 => some .R7
  | _ => none

/-- `Immediate5(i8)` — the 5-bit immediate newtype. -/
structure Immediate5 where
  val : Int
deriving DecidableEq, Repr

/-- `impl From<i16> for Immediate5`:
`value & 0b11111` then `i5_to_i8(value as i8)`. -/
def Immediate5.ofInt (value : Int) : Immediate5 :=
  ⟨i5_to_i8 (value % 32)⟩

/-- `PcOffset9(i16)`. -/
structure PcOffset9 where
  val : Int
deriving DecidableEq, Repr

/-- `impl From<i16> for PcOffset9`: `value & 0b111111111` then `i9_to_i16`. -/
def PcOffset9.ofInt (value : Int) : PcOffset9 :=
  ⟨i9_to_i16 (value % 512)⟩

/-- `PcOffset11(i16)`. -/
structure PcOffset11 where
  val : Int
deriving DecidableEq, Repr

/-- `impl From<i16> for PcOffset11`: `value & 0b11111111111` then `i11_to_i16`. -/
def PcOffset11.ofInt (value : Int) : PcOffset11 :=
  ⟨i11_to_i16 (value % 2048)⟩

/-- `Offset6(i8)`. -/
structure Offset6 where
  val : Int
deriving DecidableEq, Repr

/-- `impl From<i16> for Offset6`: `value & 0b111111` then `i6_to_i8(value as i8)`. -/
def Offset6.ofInt (value : Int) : Offset6 :=
  ⟨i6_to_i8 (value % 64)⟩

/-- `DesiredConditionFlags` — the three-bit branch operand. -/
structure DesiredConditionFlags where
  negative : Bool
  zero : Bool
  positive : Bool
deriving DecidableEq, Repr

/-- `DesiredConditionFlags::into_flags` — pack into the `n z p` bit mask
(the three `|=` write disjoint bits, so they add). -/
def DesiredConditionFlags.into_flags (f : DesiredConditionFlags) : Nat :=
  (if f.negative then 4 else 0) + (if f.zero then 2 else 0) +
    (if f.positive then 1 else 0)

/-- `impl From<u16> for DesiredConditionFlags`:
`value & 0b100 != 0`, `value & 0b010 != 0`, `value & 0b001 != 0`. -/
def DesiredConditionFlags.ofNat (value : Nat) : DesiredConditionFlags :=
  ⟨value / 4 % 2 != 0, value / 2 % 2 != 0, value % 2 != 0⟩

/-! ## The `Instruction` enum -/

/-- The tagged instruction type, one variant per opcode.  `Trap`
carries its `u8` vector as a `Nat`. -/
inductive Instruction : Type
  | Add (dr sr1 sr2 : Register)
  | AddImmediate (dr sr1 : Register) (imm : Immediate5)
  | And (dr sr1 sr2 : Register)
  | AndImmediate (dr sr1 : Register) (imm : Immediate5)
  | Branch (flags : DesiredConditionFlags) (offset : PcOffset9)
  | Jump (baser : Register)
  | JumpSubroutine (offset : PcOffset11)
  | JumpSubroutineRegister (baser : Register)
  | Load (dr : Register) (offset : PcOffset9)
  | LoadIndirect (dr : Register) (offset : PcOffset9)
  | LoadRegister (dr baser : Register) (offset : Offset6)
  | LoadEffectiveAddress (dr : Register) (offset : PcOffset9)
  | Not (dr sr : Register)
  | ReturnToInterrupt
  | Store (sr : Register) (offset : PcOffset9)
  | StoreIndirect (sr : Register) (offset : PcOffset9)
  | StoreRegister (sr baser : Register) (offset : Offset6)
  | Trap (vector : Nat)
  | Reserved
deriving DecidableEq, Repr

namespace Instruction

/-- `instr as i16` — reinterpret a `u16` word as signed.  Operand
constructors receive the whole word this way before masking. -/
def u16ToI16 (n : Nat) : Int :=
  if n < 32768 then (n : Int) else (n : Int) - 65536

/-- `Instruction::get_header`: `(instr >> 12) & 0b1111`. -/
def get_header (instr : Nat) : Nat :=
  instr / 4096 % 16

/-- The `0b0001 | 0b0101` arm of `decode` (ADD and AND, register or
immediate form, selected by bit 5; `kind == 0b001` selects ADD). -/
def decodeAddAnd (kind instr : Nat) : Option Instruction := do
  let dr ← Register.ofNat? (instr / 512 % 8)
  let sr1 ← Register.ofNat? (instr / 64 % 8)
  let is_immediate := instr / 32 % 2 != 0
  if is_immediate then
    if kind == 1 then
      pure (AddImmediate dr sr1 (Immediate5.ofInt (u16ToI16 instr)))
    else
      pure (AndImmediate dr sr1 (Immediate5.ofInt (u16ToI16 instr)))
  else
    let sr2 ← Register.ofNat? (instr % 8)
    if kind == 1 then
      pure (Add dr sr1 sr2)
    else
      pure (And dr sr1 sr2)

/-- `Instruction::decode`.  The final `panic!("Invalid opcode!")` arm is
`none`, as is the panic inside `Register::from` for an index ≥ 8. -/
def decode (instr : Nat) : Option Instruction :=
  match get_header instr with
  -- ADD & AND
  | 1 => decodeAddAnd 1 instr
  | 5 => decodeAddAnd 5 instr
  -- branch
  | 0 =>
    some (Branch (DesiredConditionFlags.ofNat (instr / 512 % 8))
      (PcOffset9.ofInt (u16ToI16 instr)))
  -- jump
  | 12 => do
    let baser ← Register.ofNat? (instr / 64 % 8)
    pure (Jump baser)
  -- jump sub && jump sub register
  | 4 =>
    if instr / 2048 % 2 != 0 then
      some (JumpSubroutine (PcOffset11.ofInt (u16ToI16 instr)))
    else do
      let baser ← Register.ofNat? (instr / 64 % 8)
      pure (JumpSubroutineRegister baser)
  -- load & load indirect
  | 2 => do
    let dr ← Register.ofNat? (instr / 512 % 8)
    pure (Load dr (PcOffset9.ofInt (u16ToI16 instr)))
  | 10 => do
    let dr ← Register.ofNat? (instr / 512 % 8)
    pure (LoadIndirect dr (PcOffset9.ofInt (u16ToI16 instr)))
  -- load register
  | 6 => do
    let dr ← Register.ofNat? (instr / 512 % 8)
    let baser ← Register.ofNat? (instr / 64 % 8)
    pure (LoadRegister dr baser (Offset6.ofInt (u16ToI16 instr)))
  -- load effective address
  | 14 => do
    let dr ← Register.ofNat? (instr / 512 % 8)
    pure (LoadEffectiveAddress dr (PcOffset9.ofInt (u16ToI16 instr)))
  -- not
  | 9 => do
    let dr ← Register.ofNat? (instr / 512 % 8)
    let sr ← Register.ofNat? (instr / 64 % 8)
    pure (Not dr sr)
  -- return to interrupt
  | 8 => some ReturnToInterrupt
  -- store & store indirect
  | 3 => do
    let sr ← Register.ofNat? (instr / 512 % 8)
    pure (Store sr (PcOffset9.ofInt (u16ToI16 instr)))
  | 11 => do
    let sr ← Register.ofNat? (instr / 512 % 8)
    pure (StoreIndirect sr (PcOffset9.ofInt (u16ToI16 instr)))
  -- store register
  | 7 => do
    let sr ← Register.ofNat? (instr / 512 % 8)
    let baser ← Register.ofNat? (instr / 64 % 8)
    pure (StoreRegister sr baser (Offset6.ofInt (u16ToI16 instr)))
  -- TRAP: `instr as u8`
  | 15 => some (Trap (instr % 256))
  -- reserved
  | 13 => some Reserved
  | _ => none

/-- `Instruction::encode`.  All the `|=` in the source write disjoint
bit fields, so they are rendered as sums of shifted fields; `x & (2^k-1)`
on a signed operand is `(x % 2^k).toNat`. -/
def encode : Instruction → Nat
  | Add dr sr1 sr2 =>
    4096 + dr.toNat * 512 + sr1.toNat * 64 + sr2.toNat
  | AddImmediate dr sr1 imm =>
    4096 + dr.toNat * 512 + sr1.toNat * 64 + 32 + (imm.val % 32).toNat
  | And dr sr1 sr2 =>
    20480 + dr.toNat * 512 + sr1.toNat * 64 + sr2.toNat
  | AndImmediate dr sr1 imm =>
    20480 + dr.toNat * 512 + sr1.toNat * 64 + 32 + (imm.val % 32).toNat
  | Branch flags offset =>
    flags.into_flags % 8 * 512 + (offset.val % 512).toNat
  | Jump baser =>
    49152 + baser.toNat * 64
  | JumpSubroutine offset =>
    16384 + 2048 + (offset.val % 2048).toNat
  | JumpSubroutineRegister baser =>
    16384 + baser.toNat * 64
  | Load dr offset =>
    8192 + dr.toNat * 512 + (offset.val % 512).toNat
  | LoadIndirect dr offset =>
    40960 + dr.toNat * 512 + (offset.val % 512).toNat
  | LoadRegister dr baser offset =>
    24576 + dr.toNat * 512 + baser.toNat * 64 + (offset.val % 64).toNat
  | LoadEffectiveAddress dr offset =>
    57344 + dr.toNat * 512 + (offset.val % 512).toNat
  | Not dr sr =>
    36864 + dr.toNat * 512 + sr.toNat * 64 + 63
  | ReturnToInterrupt => 32768
  | Store sr offset =>
    12288 + sr.toNat * 512 + (offset.val % 512).toNat
  | StoreIndirect sr offset =>
    45056 + sr.toNat * 512 + (offset.val % 512).toNat
  | StoreRegister sr baser offset =>
    28672 + sr.toNat * 512 + baser.toNat * 64 + (offset.val % 64).toNat
  | Trap vector =>
    61440 + vector % 256
  | Reserved => 53248

/-- `Instruction::trap_halt()` — `Trap(0x25)`. -/
def trap_halt : Instruction := Trap 0x25

/-- An instruction is constructible through the public API exactly when
every narrow operand carries an in-range sign-extended value and the
trap vector fits in a byte (the Rust newtypes guarantee this for every
value built through their `From` constructors). -/
def WF : Instruction → Prop
  | AddImmediate _ _ imm => -16 ≤ imm.val ∧ imm.val ≤ 15
  | AndImmediate _ _ imm => -16 ≤ imm.val ∧ imm.val ≤ 15
  | Branch _ offset => -256 ≤ offset.val ∧ offset.val ≤ 255
  | JumpSubroutine offset => -1024 ≤ offset.val ∧ offset.val ≤ 1023
  | Load _ offset => -256 ≤ offset.val ∧ offset.val ≤ 255
  | LoadIndirect _ offset => -256 ≤ offset.val ∧ offset.val ≤ 255
  | LoadRegister _ _ offset => -32 ≤ offset.val ∧ offset.val ≤ 31
  | LoadEffectiveAddress _ offset => -256 ≤ offset.val ∧ offset.val ≤ 255
  | Store _ offset => -256 ≤ offset.val ∧ offset.val ≤ 255
  | StoreIndirect _ offset => -256 ≤ offset.val ∧ offset.val ≤ 255
  | StoreRegister _ _ offset => -32 ≤ offset.val ∧ offset.val ≤ 31
  | Trap vector => vector < 256
  | _ => True

instance : DecidablePred WF := by
  intro i
  cases i <;> simp only [WF] <;> infer_instance

end Instruction

end LC3

namespace LC3

/-! ## `src/vm/machine.rs` -/

/-- `x as u16` for a signed value — reinterpret modulo 2^16. -/
def toU16 (x : Int) : Nat :=
  (x % 65536).toNat

/-- Wrapping to `i16` — the result of `as i16` casts and of wrapping
`i16` arithmetic. -/
def toI16 (x : Int) : Int :=
  let v := x % 65536
  if 32768 ≤ v then v - 65536 else v

/-- `x as u8` for a signed value — reinterpret modulo 2^8. -/
def toU8 (x : Int) : Nat :=
  (x % 256).toNat

/-- Bitwise AND of two `i16` values: AND the 16 two's-complement bits
and reinterpret. -/
def i16And (a b : Int) : Int :=
  toI16 ((toU16 a &&& toU16 b : Nat) : Int)

/-- `ConditionCode` — exactly one of Negative, Zero, Positive. -/
inductive ConditionCode : Type
  | Negative | Zero | Positive
deriving DecidableEq, Repr

/-- `ConditionCode::into_flags`. -/
def ConditionCode.into_flags : ConditionCode → Nat
  | .Negative => 4
  | .Zero => 2
  | .Positive => 1

/-- `Machine`.  Memory is the sparse zero-default `Memory(Vec<i16>)`
(reads beyond the written extent yield 0, `ensure_space` grows on
write), modelled as a total function defaulting to 0, which is
observably the same store.  `stdin` is the byte stream still to be
read; `stdout` the bytes written so far. -/
structure Machine where
  registers : Register → Int
  memory : Nat → Int
  ip : Nat
  condition_code : ConditionCode
  halted : Bool
  jumped : Bool
  stdin : List Nat
  stdout : List Nat

/-- `*self.registers.get_mut(r) = v`. -/
def Machine.setReg (m : Machine) (r : Register) (v : Int) : Machine :=
  { m with registers := fun r' => if r' = r then v else m.registers r' }

/-- `self.memory[addr] = v`. -/
def Machine.writeMem (m : Machine) (addr : Nat) (v : Int) : Machine :=
  { m with memory := fun a => if a = addr then v else m.memory a }

/-- The value the condition code is set to from a register value
(`match { 0 => Zero, 1.. => Positive, ..0 => Negative }`). -/
def ccOf (v : Int) : ConditionCode :=
  if v = 0 then .Zero else if 0 < v then .Positive else .Negative

/-- `Machine::set_condition_code_based_on`. -/
def Machine.set_condition_code_based_on (m : Machine) (reg : Register) :
    Machine :=
  { m with condition_code := ccOf (m.registers reg) }

/-- The PUTS loop of `handle_trap` 0x22: emit words' low bytes starting
at `addr` until a zero word; the address wraps as a `u16`.  The fuel
(65537 at the call site) covers every address once; exhausting it means
no zero word is reachable and the source loop never terminates, which
is `none`. -/
def putsLoop (mem : Nat → Int) : Nat → Nat → Option (List Nat)
  | _, 0 => none
  | addr, fuel + 1 =>
    if mem addr = 0 then some []
    else (putsLoop mem ((addr + 1) % 65536) fuel).map
      fun rest => toU8 (mem addr) :: rest

/-- `Machine::handle_trap`.  `todo!()` arms (0x23, unknown vectors) and
the `expect` on an exhausted stdin are `none`. -/
def Machine.handle_trap (m : Machine) (vec : Nat) : Option Machine :=
  match vec with
  -- getc: read exactly one byte into R0
  | 0x20 =>
    match m.stdin with
    | [] => none
    | b :: rest => some ({ m with stdin := rest }.setReg .R0 ((b % 256 : Nat) : Int))
  -- out: write `r0 as u8`
  | 0x21 => some { m with stdout := m.stdout ++ [toU8 (m.registers .R0)] }
  -- puts
  | 0x22 =>
    (putsLoop m.memory (toU16 (m.registers .R0)) 65537).map
      fun out => { m with stdout := m.stdout ++ out }
  -- halt
  | 0x25 => some { m with halted := true }
  | _ => none

/-- `Machine::evaluate` (with `handle_add`, `handle_and`, `handle_not`
inlined at their single call sites).

Modelled from the spec: the raw-word accessor methods `is_add`,
`get_branch`, `get_jmp`, `get_jsr`, `get_jsrr`, `get_ld`, `get_ldi`,
`get_ldr`, `get_lea`, `is_not`, `get_st`, `get_sti`, `get_str`,
`get_trap_vector`, `check_bit_5`, `get_dr_sr1_imm5`, `get_dr_sr1_sr2`
and `get_dr_sr` that `machine.rs` dispatches on are not in the sources
provided; following §4.1/§4.3 of the spec they extract exactly the
fields that `Instruction::decode` extracts (sign-extended offsets and
immediates), so `evaluate` is given the decoded tagged instruction and
each `if let` branch becomes the match arm of the corresponding
variant.  The branch bodies below are the bodies of `machine.rs`
line for line; `ReturnToInterrupt` and `Reserved` match no branch of
the source's `if`/`else if` chain and fall through unchanged. -/
def Machine.evaluate (m : Machine) : Instruction → Option Machine
  | .Add dr sr1 sr2 =>
    let v := toI16 (m.registers sr1 + m.registers sr2)
    some ((m.setReg dr v).set_condition_code_based_on dr)
  | .AddImmediate dr sr1 imm =>
    let v := toI16 (m.registers sr1 + imm.val)
    some ((m.setReg dr v).set_condition_code_based_on dr)
  | .And dr sr1 sr2 =>
    let v := i16And (m.registers sr1) (m.registers sr2)
    some ((m.setReg dr v).set_condition_code_based_on dr)
  | .AndImmediate dr sr1 imm =>
    let v := i16And (m.registers sr1) imm.val
    some ((m.setReg dr v).set_condition_code_based_on dr)
  | .Branch flags offset =>
    -- at least one '1' matches with the condition flags
    if m.condition_code.into_flags &&& flags.into_flags ≠ 0 then
      some { m with ip := toU16 ((m.ip : Int) + offset.val), jumped := true }
    else
      some m
  | .Jump reg =>
    some { m with ip := toU16 (m.registers reg), jumped := true }
  | .JumpSubroutine offset =>
    let m1 := m.setReg .R7 (Instruction.u16ToI16 m.ip)
    some { m1 with ip := toU16 ((m.ip : Int) + offset.val) }
  | .JumpSubroutineRegister baser =>
    -- R7 is written first; the base register is read afterwards
    let m1 := m.setReg .R7 (Instruction.u16ToI16 m.ip)
    let addr := m1.registers baser
    some { m1 with ip := toU16 addr }
  | .Load dr offset =>
    let value := m.memory (toU16 ((m.ip : Int) + offset.val))
    some ((m.setReg dr value).set_condition_code_based_on dr)
  | .LoadIndirect dr offset =>
    let addr := m.memory (toU16 ((m.ip : Int) + offset.val))
    let value := m.memory (toU16 addr)
    some ((m.setReg dr value).set_condition_code_based_on dr)
  | .LoadRegister dr baser offset =>
    let addr := toI16 (m.registers baser + offset.val)
    let value := m.memory (toU16 addr)
    some ((m.setReg dr value).set_condition_code_based_on dr)
  | .LoadEffectiveAddress dr offset =>
    let effective_addr := toI16 ((m.ip : Int) + offset.val)
    some ((m.setReg dr effective_addr).set_condition_code_based_on dr)
  | .Not dr sr =>
    -- `!sr`, bitwise NOT of an i16: -x - 1
    let v := -(m.registers sr) - 1
    some ((m.setReg dr v).set_condition_code_based_on dr)
  | .ReturnToInterrupt => some m
  | .Store sr offset =>
    let addr := toU16 ((m.ip : Int) + offset.val)
    some ((m.writeMem addr (m.registers sr)).set_condition_code_based_on sr)
  | .StoreIndirect sr offset =>
    let addr := toU16 ((m.ip : Int) + offset.val)
    let addr2 := m.memory addr
    some ((m.writeMem (toU16 addr2) (m.registers sr)).set_condition_code_based_on sr)
  | .StoreRegister sr baser offset =>
    let addr := toI16 (m.registers baser + offset.val)
    some ((m.writeMem (toU16 addr) (m.registers sr)).set_condition_code_based_on sr)
  | .Trap vec => m.handle_trap vec
  | .Reserved => some m

/-- `Machine::step`: fetch `memory[ip]`, increment `ip` (wrapping),
decode and execute. -/
def Machine.step (m : Machine) : Option Machine :=
  let instr := m.memory m.ip
  (Instruction.decode (toU16 instr)).bind
    fun i => Machine.evaluate { m with ip := (m.ip + 1) % 65536 } i

/-- `Machine::run_until_halt`: `while !self.halted { self.step(); }`,
with fuel bounding the number of iterations; `none` means the loop has
not returned within `fuel` steps (or a step panicked). -/
def Machine.run_until_halt (fuel : Nat) (m : Machine) : Option Machine :=
  if m.halted then some m
  else
    match fuel with
    | 0 => none
    | fuel + 1 => m.step.bind (Machine.run_until_halt fuel)

/-- `k` consecutive `step`s. -/
def Machine.stepN : Nat → Machine → Option Machine
  | 0, m => some m
  | k + 1, m => m.step.bind (Machine.stepN k)

/-- `Machine::new`: zero registers, program words at `orig` (each
stored as its encoded word reinterpreted as `i16`), zeros elsewhere,
`ip = orig`, condition code `Zero`, not halted. -/
def Machine.new (stdin : List Nat) (orig : Nat)
    (instructions : List Instruction) : Machine where
  registers := fun _ => 0
  memory := fun a =>
    if a < orig then 0
    else
      match instructions.get? (a - orig) with
      | some i => Instruction.u16ToI16 i.encode
      | none => 0
  ip := orig
  condition_code := .Zero
  halted := false
  jumped := false
  stdin := stdin
  stdout := []

end LC3

namespace LC3

/-- The 16-bit words whose don't-care bits hold exactly the values
`Instruction::encode` re-emits: nothing is required of BR, LD, LDI, LDR,
LEA, ST, STI, STR, JSR, immediate-form ADD/AND and TRAP-payload bits;
register-form ADD/AND need bits 4-3 zero, JSRR needs bits 10-9 and 5-0
zero, RTI needs its low twelve bits zero, NOT needs its low six bits all
ones, JMP needs bits 11-9 and 5-0 zero, and TRAP needs bits 11-8 zero.
This condition is stated from the amended claim, to be compared with the
codec. -/
def canonicalWord (w : Nat) : Prop :=
  (Instruction.get_header w = 1 ∨ Instruction.get_header w = 5 →
    w / 32 % 2 = 1 ∨ w / 8 % 4 = 0) ∧
  (Instruction.get_header w = 4 →
    w / 2048 % 2 = 1 ∨ (w / 512 % 4 = 0 ∧ w % 64 = 0)) ∧
  (Instruction.get_header w = 8 → w % 4096 = 0) ∧
  (Instruction.get_header w = 9 → w % 64 = 63) ∧
  (Instruction.get_header w = 12 → w / 512 % 8 = 0 ∧ w % 64 = 0) ∧
  (Instruction.get_header w = 15 → w / 256 % 16 = 0)

instance : DecidablePred canonicalWord := by
  intro w
  unfold canonicalWord
  infer_instance

end LC3

namespace LC3

/-! ## Basic facts about the codec pieces -/

theorem Register.toNat_lt (r : Register) : r.toNat < 8 := by
  cases r <;> decide

theorem Register.ofNat?_toNat (r : Register) :
    Register.ofNat? r.toNat = some r := by
  cases r <;> decide

theorem Register.ofNat?_of_lt (n : Nat) (h : n < 8) :
    ∃ r : Register, Register.ofNat? n = some r ∧ r.toNat = n := by
  interval_cases n <;> exact ⟨_, rfl, rfl⟩

theorem i5_to_i8_emod (v : Int) (h1 : -16 ≤ v) (h2 : v ≤ 15) :
    i5_to_i8 (v % 32) = v := by
  simp only [i5_to_i8]
  split <;> omega

theorem i6_to_i8_emod (v : Int) (h1 : -32 ≤ v) (h2 : v ≤ 31) :
    i6_to_i8 (v % 64) = v := by
  simp only [i6_to_i8]
  split <;> omega

theorem i9_to_i16_emod (v : Int) (h1 : -256 ≤ v) (h2 : v ≤ 255) :
    i9_to_i16 (v % 512) = v := by
  simp only [i9_to_i16]
  split <;> omega

theorem i11_to_i16_emod (v : Int) (h1 : -1024 ≤ v) (h2 : v ≤ 1023) :
    i11_to_i16 (v % 2048) = v := by
  simp only [i11_to_i16]
  split <;> omega

end LC3

namespace LC3

/-! ## Codec lemmas: field extraction and round trips -/

theorem u16ToI16_emod32 (w : Nat) :
    Instruction.u16ToI16 w % 32 = ((w % 32 : Nat) : Int) := by
  unfold Instruction.u16ToI16
  split <;> omega

theorem u16ToI16_emod64 (w : Nat) :
    Instruction.u16ToI16 w % 64 = ((w % 64 : Nat) : Int) := by
  unfold Instruction.u16ToI16
  split <;> omega

theorem u16ToI16_emod512 (w : Nat) :
    Instruction.u16ToI16 w % 512 = ((w % 512 : Nat) : Int) := by
  unfold Instruction.u16ToI16
  split <;> omega

theorem u16ToI16_emod2048 (w : Nat) :
    Instruction.u16ToI16 w % 2048 = ((w % 2048 : Nat) : Int) := by
  unfold Instruction.u16ToI16
  split <;> omega

theorem imm5_rt (v : Int) (h1 : -16 ≤ v) (h2 : v ≤ 15) (w : Nat)
    (hw : w % 32 = (v % 32).toNat) :
    Immediate5.ofInt (Instruction.u16ToI16 w) = ⟨v⟩ := by
  unfold Immediate5.ofInt
  rw [u16ToI16_emod32 w, hw]
  congr 1
  have hc : ((v % 32).toNat : Int) = v % 32 := by omega
  rw [hc]
  exact i5_to_i8_emod v h1 h2

theorem off6_rt (v : Int) (h1 : -32 ≤ v) (h2 : v ≤ 31) (w : Nat)
    (hw : w % 64 = (v % 64).toNat) :
    Offset6.ofInt (Instruction.u16ToI16 w) = ⟨v⟩ := by
  unfold Offset6.ofInt
  rw [u16ToI16_emod64 w, hw]
  congr 1
  have hc : ((v % 64).toNat : Int) = v % 64 := by omega
  rw [hc]
  exact i6_to_i8_emod v h1 h2

theorem pc9_rt (v : Int) (h1 : -256 ≤ v) (h2 : v ≤ 255) (w : Nat)
    (hw : w % 512 = (v % 512).toNat) :
    PcOffset9.ofInt (Instruction.u16ToI16 w) = ⟨v⟩ := by
  unfold PcOffset9.ofInt
  rw [u16ToI16_emod512 w, hw]
  congr 1
  have hc : ((v % 512).toNat : Int) = v % 512 := by omega
  rw [hc]
  exact i9_to_i16_emod v h1 h2

theorem pc11_rt (v : Int) (h1 : -1024 ≤ v) (h2 : v ≤ 1023) (w : Nat)
    (hw : w % 2048 = (v % 2048).toNat) :
    PcOffset11.ofInt (Instruction.u16ToI16 w) = ⟨v⟩ := by
  unfold PcOffset11.ofInt
  rw [u16ToI16_emod2048 w, hw]
  congr 1
  have hc : ((v % 2048).toNat : Int) = v % 2048 := by omega
  rw [hc]
  exact i11_to_i16_emod v h1 h2

theorem flags_ofNat_into_flags (f : DesiredConditionFlags) :
    DesiredConditionFlags.ofNat f.into_flags = f := by
  rcases f with ⟨n, z, p⟩
  cases n <;> cases z <;> cases p <;> rfl

theorem flags_into_flags_ofNat : ∀ n < 8,
    (DesiredConditionFlags.ofNat n).into_flags = n := by
  decide

theorem into_flags_lt (f : DesiredConditionFlags) : f.into_flags < 8 := by
  rcases f with ⟨n, z, p⟩
  cases n <;> cases z <;> cases p <;> decide

theorem i5_to_i8_bits : ∀ n : Nat, n < 32 →
    ((i5_to_i8 (n : Int)) % 32).toNat = n := by
  intro n h
  simp only [i5_to_i8]
  split <;> omega

theorem i6_to_i8_bits : ∀ n : Nat, n < 64 →
    ((i6_to_i8 (n : Int)) % 64).toNat = n := by
  intro n h
  simp only [i6_to_i8]
  split <;> omega

theorem i9_to_i16_bits : ∀ n : Nat, n < 512 →
    ((i9_to_i16 (n : Int)) % 512).toNat = n := by
  intro n h
  simp only [i9_to_i16]
  split <;> omega

theorem i11_to_i16_bits : ∀ n : Nat, n < 2048 →
    ((i11_to_i16 (n : Int)) % 2048).toNat = n := by
  intro n h
  simp only [i11_to_i16]
  split <;> omega

/-! Dispatch lemmas: `decode` reduced at a known header. -/

theorem decode_header0 {w : Nat} (h : Instruction.get_header w = 0) :
    Instruction.decode w =
      some (.Branch (DesiredConditionFlags.ofNat (w / 512 % 8))
        (PcOffset9.ofInt (Instruction.u16ToI16 w))) := by
  unfold Instruction.decode
  rw [h]

theorem decode_header1 {w : Nat} (h : Instruction.get_header w = 1) :
    Instruction.decode w = Instruction.decodeAddAnd 1 w := by
  unfold Instruction.decode
  rw [h]

theorem decode_header2 {w : Nat} (h : Instruction.get_header w = 2) :
    Instruction.decode w = (do
      let dr ← Register.ofNat? (w / 512 % 8)
      pure (Instruction.Load dr (PcOffset9.ofInt (Instruction.u16ToI16 w)))) := by
  unfold Instruction.decode
  rw [h]

theorem decode_header3 {w : Nat} (h : Instruction.get_header w = 3) :
    Instruction.decode w = (do
      let sr ← Register.ofNat? (w / 512 % 8)
      pure (Instruction.Store sr (PcOffset9.ofInt (Instruction.u16ToI16 w)))) := by
  unfold Instruction.decode
  rw [h]

theorem decode_header4 {w : Nat} (h : Instruction.get_header w = 4) :
    Instruction.decode w =
      if w / 2048 % 2 != 0 then
        some (.JumpSubroutine (PcOffset11.ofInt (Instruction.u16ToI16 w)))
      else (do
        let baser ← Register.ofNat? (w / 64 % 8)
        pure (Instruction.JumpSubroutineRegister baser)) := by
  unfold Instruction.decode
  rw [h]

theorem decode_header5 {w : Nat} (h : Instruction.get_header w = 5) :
    Instruction.decode w = Instruction.decodeAddAnd 5 w := by
  unfold Instruction.decode
  rw [h]

theorem decode_header6 {w : Nat} (h : Instruction.get_header w = 6) :
    Instruction.decode w = (do
      let dr ← Register.ofNat? (w / 512 % 8)
      let baser ← Register.ofNat? (w / 64 % 8)
      pure (Instruction.LoadRegister dr baser
        (Offset6.ofInt (Instruction.u16ToI16 w)))) := by
  unfold Instruction.decode
  rw [h]

theorem decode_header7 {w : Nat} (h : Instruction.get_header w = 7) :
    Instruction.decode w = (do
      let sr ← Register.ofNat? (w / 512 % 8)
      let baser ← Register.ofNat? (w / 64 % 8)
      pure (Instruction.StoreRegister sr baser
        (Offset6.ofInt (Instruction.u16ToI16 w)))) := by
  unfold Instruction.decode
  rw [h]

theorem decode_header8 {w : Nat} (h : Instruction.get_header w = 8) :
    Instruction.decode w = some .ReturnToInterrupt := by
  unfold Instruction.decode
  rw [h]

theorem decode_header9 {w : Nat} (h : Instruction.get_header w = 9) :
    Instruction.decode w = (do
      let dr ← Register.ofNat? (w / 512 % 8)
      let sr ← Register.ofNat? (w / 64 % 8)
      pure (Instruction.Not dr sr)) := by
  unfold Instruction.decode
  rw [h]

theorem decode_header10 {w : Nat} (h : Instruction.get_header w = 10) :
    Instruction.decode w = (do
      let dr ← Register.ofNat? (w / 512 % 8)
      pure (Instruction.LoadIndirect dr
        (PcOffset9.ofInt (Instruction.u16ToI16 w)))) := by
  unfold Instruction.decode
  rw [h]

theorem decode_header11 {w : Nat} (h : Instruction.get_header w = 11) :
    Instruction.decode w = (do
      let sr ← Register.ofNat? (w / 512 % 8)
      pure (Instruction.StoreIndirect sr
        (PcOffset9.ofInt (Instruction.u16ToI16 w)))) := by
  unfold Instruction.decode
  rw [h]

theorem decode_header12 {w : Nat} (h : Instruction.get_header w = 12) :
    Instruction.decode w = (do
      let baser ← Register.ofNat? (w / 64 % 8)
      pure (Instruction.Jump baser)) := by
  unfold Instruction.decode
  rw [h]

theorem decode_header13 {w : Nat} (h : Instruction.get_header w = 13) :
    Instruction.decode w = some .Reserved := by
  unfold Instruction.decode
  rw [h]

theorem decode_header14 {w : Nat} (h : Instruction.get_header w = 14) :
    Instruction.decode w = (do
      let dr ← Register.ofNat? (w / 512 % 8)
      pure (Instruction.LoadEffectiveAddress dr
        (PcOffset9.ofInt (Instruction.u16ToI16 w)))) := by
  unfold Instruction.decode
  rw [h]

theorem decode_header15 {w : Nat} (h : Instruction.get_header w = 15) :
    Instruction.decode w = some (.Trap (w % 256)) := by
  unfold Instruction.decode
  rw [h]

end LC3

namespace LC3

theorem decodeAddAnd_total (kind w : Nat) :
    ∃ i, Instruction.decodeAddAnd kind w = some i := by
  obtain ⟨d, hd, -⟩ := Register.ofNat?_of_lt (w / 512 % 8) (Nat.mod_lt _ (by norm_num))
  obtain ⟨s, hs, -⟩ := Register.ofNat?_of_lt (w / 64 % 8) (Nat.mod_lt _ (by norm_num))
  obtain ⟨t, ht, -⟩ := Register.ofNat?_of_lt (w % 8) (Nat.mod_lt _ (by norm_num))
  unfold Instruction.decodeAddAnd
  simp only [hd, hs, ht, Option.bind_some]
  split
  · split <;> exact ⟨_, rfl⟩
  · split <;> exact ⟨_, rfl⟩

theorem decode_total (w : Nat) : ∃ i, Instruction.decode w = some i := by
  have hreg : ∀ n : Nat, ∃ r, Register.ofNat? (n % 8) = some r := by
    intro n
    obtain ⟨r, hr, -⟩ := Register.ofNat?_of_lt (n % 8) (Nat.mod_lt _ (by norm_num))
    exact ⟨r, hr⟩
  have h : Instruction.get_header w < 16 := Nat.mod_lt _ (by norm_num)
  have hcase : Instruction.get_header w = 0 ∨ Instruction.get_header w = 1 ∨
      Instruction.get_header w = 2 ∨ Instruction.get_header w = 3 ∨
      Instruction.get_header w = 4 ∨ Instruction.get_header w = 5 ∨
      Instruction.get_header w = 6 ∨ Instruction.get_header w = 7 ∨
      Instruction.get_header w = 8 ∨ Instruction.get_header w = 9 ∨
      Instruction.get_header w = 10 ∨ Instruction.get_header w = 11 ∨
      Instruction.get_header w = 12 ∨ Instruction.get_header w = 13 ∨
      Instruction.get_header w = 14 ∨ Instruction.get_header w = 15 := by
    omega
  obtain ⟨d, hd⟩ := hreg (w / 512)
  obtain ⟨s, hs⟩ := hreg (w / 64)
  rcases hcase with h' | h' | h' | h' | h' | h' | h' | h' | h' | h' | h' | h' |
      h' | h' | h' | h'
  · exact ⟨_, decode_header0 h'⟩
  · rw [decode_header1 h']
    exact decodeAddAnd_total 1 w
  · rw [decode_header2 h']
    exact ⟨.Load d (PcOffset9.ofInt (Instruction.u16ToI16 w)), by rw [hd]; rfl⟩
  · rw [decode_header3 h']
    exact ⟨.Store d (PcOffset9.ofInt (Instruction.u16ToI16 w)), by rw [hd]; rfl⟩
  · rw [decode_header4 h']
    split
    · exact ⟨_, rfl⟩
    · exact ⟨.JumpSubroutineRegister s, by rw [hs]; rfl⟩
  · rw [decode_header5 h']
    exact decodeAddAnd_total 5 w
  · rw [decode_header6 h']
    exact ⟨.LoadRegister d s (Offset6.ofInt (Instruction.u16ToI16 w)), by rw [hd, hs]; rfl⟩
  · rw [decode_header7 h']
    exact ⟨.StoreRegister d s (Offset6.ofInt (Instruction.u16ToI16 w)), by rw [hd, hs]; rfl⟩
  · exact ⟨_, decode_header8 h'⟩
  · rw [decode_header9 h']
    exact ⟨.Not d s, by rw [hd, hs]; rfl⟩
  · rw [decode_header10 h']
    exact ⟨.LoadIndirect d (PcOffset9.ofInt (Instruction.u16ToI16 w)), by rw [hd]; rfl⟩
  · rw [decode_header11 h']
    exact ⟨.StoreIndirect d (PcOffset9.ofInt (Instruction.u16ToI16 w)), by rw [hd]; rfl⟩
  · rw [decode_header12 h']
    exact ⟨.Jump s, by rw [hs]; rfl⟩
  · exact ⟨_, decode_header13 h'⟩
  · rw [decode_header14 h']
    exact ⟨.LoadEffectiveAddress d (PcOffset9.ofInt (Instruction.u16ToI16 w)), by rw [hd]; rfl⟩
  · exact ⟨_, decode_header15 h'⟩

end LC3

namespace LC3

/-- C1: For every constructible instruction value `i` of the tagged
`Instruction` enum (every variant, with any register operands, any flag
set, and any in-range immediate or offset), `decode (encode i) = i`
(`decode` being `Option`-valued in the embedding, it returns `some i`
and in particular does not panic). -/
theorem claim_C1 (i : Instruction) (h : i.WF) :
    Instruction.decode i.encode = some i := by
  cases i with
  | Add dr sr1 sr2 =>
    have ha := Register.toNat_lt dr
    have hb := Register.toNat_lt sr1
    have hc := Register.toNat_lt sr2
    show Instruction.decode
      (4096 + dr.toNat * 512 + sr1.toNat * 64 + sr2.toNat) = _
    set w := 4096 + dr.toNat * 512 + sr1.toNat * 64 + sr2.toNat with hw
    have hh : Instruction.get_header w = 1 := by
      unfold Instruction.get_header; omega
    rw [decode_header1 hh]
    unfold Instruction.decodeAddAnd
    have h512 : w / 512 % 8 = dr.toNat := by omega
    have h64 : w / 64 % 8 = sr1.toNat := by omega
    have h32 : w / 32 % 2 = 0 := by omega
    have h8 : w % 8 = sr2.toNat := by omega
    rw [h512, h64, h32, h8, Register.ofNat?_toNat, Register.ofNat?_toNat,
      Register.ofNat?_toNat]
    rfl
  | AddImmediate dr sr1 imm =>
    rcases imm with ⟨v⟩
    obtain ⟨h1, h2⟩ := h
    have ha := Register.toNat_lt dr
    have hb := Register.toNat_lt sr1
    show Instruction.decode
      (4096 + dr.toNat * 512 + sr1.toNat * 64 + 32 + (v % 32).toNat) = _
    set w := 4096 + dr.toNat * 512 + sr1.toNat * 64 + 32 + (v % 32).toNat
      with hw
    have hh : Instruction.get_header w = 1 := by
      unfold Instruction.get_header; omega
    rw [decode_header1 hh]
    unfold Instruction.decodeAddAnd
    have h512 : w / 512 % 8 = dr.toNat := by omega
    have h64 : w / 64 % 8 = sr1.toNat := by omega
    have h32 : w / 32 % 2 = 1 := by omega
    rw [h512, h64, h32, Register.ofNat?_toNat, Register.ofNat?_toNat,
      imm5_rt v h1 h2 w (by omega)]
    rfl
  | And dr sr1 sr2 =>
    have ha := Register.toNat_lt dr
    have hb := Register.toNat_lt sr1
    have hc := Register.toNat_lt sr2
    show Instruction.decode
      (20480 + dr.toNat * 512 + sr1.toNat * 64 + sr2.toNat) = _
    set w := 20480 + dr.toNat * 512 + sr1.toNat * 64 + sr2.toNat with hw
    have hh : Instruction.get_header w = 5 := by
      unfold Instruction.get_header; omega
    rw [decode_header5 hh]
    unfold Instruction.decodeAddAnd
    have h512 : w / 512 % 8 = dr.toNat := by omega
    have h64 : w / 64 % 8 = sr1.toNat := by omega
    have h32 : w / 32 % 2 = 0 := by omega
    have h8 : w % 8 = sr2.toNat := by omega
    rw [h512, h64, h32, h8, Register.ofNat?_toNat, Register.ofNat?_toNat,
      Register.ofNat?_toNat]
    rfl
  | AndImmediate dr sr1 imm =>
    rcases imm with ⟨v⟩
    obtain ⟨h1, h2⟩ := h
    have ha := Register.toNat_lt dr
    have hb := Register.toNat_lt sr1
    show Instruction.decode
      (20480 + dr.toNat * 512 + sr1.toNat * 64 + 32 + (v % 32).toNat) = _
    set w := 20480 + dr.toNat * 512 + sr1.toNat * 64 + 32 + (v % 32).toNat
      with hw
    have hh : Instruction.get_header w = 5 := by
      unfold Instruction.get_header; omega
    rw [decode_header5 hh]
    unfold Instruction.decodeAddAnd
    have h512 : w / 512 % 8 = dr.toNat := by omega
    have h64 : w / 64 % 8 = sr1.toNat := by omega
    have h32 : w / 32 % 2 = 1 := by omega
    rw [h512, h64, h32, Register.ofNat?_toNat, Register.ofNat?_toNat,
      imm5_rt v h1 h2 w (by omega)]
    rfl
  | Branch flags offset =>
    rcases offset with ⟨v⟩
    obtain ⟨h1, h2⟩ := h
    have hf := into_flags_lt flags
    show Instruction.decode
      (flags.into_flags % 8 * 512 + (v % 512).toNat) = _
    set w := flags.into_flags % 8 * 512 + (v % 512).toNat with hw
    have hh : Instruction.get_header w = 0 := by
      unfold Instruction.get_header; omega
    rw [decode_header0 hh]
    have h512 : w / 512 % 8 = flags.into_flags := by omega
    rw [h512, flags_ofNat_into_flags, pc9_rt v h1 h2 w (by omega)]
  | Jump baser =>
    have ha := Register.toNat_lt baser
    show Instruction.decode (49152 + baser.toNat * 64) = _
    set w := 49152 + baser.toNat * 64 with hw
    have hh : Instruction.get_header w = 12 := by
      unfold Instruction.get_header; omega
    rw [decode_header12 hh]
    have h64 : w / 64 % 8 = baser.toNat := by omega
    rw [h64, Register.ofNat?_toNat]
    rfl
  | JumpSubroutine offset =>
    rcases offset with ⟨v⟩
    obtain ⟨h1, h2⟩ := h
    show Instruction.decode (16384 + 2048 + (v % 2048).toNat) = _
    set w := 16384 + 2048 + (v % 2048).toNat with hw
    have hh : Instruction.get_header w = 4 := by
      unfold Instruction.get_header; omega
    rw [decode_header4 hh]
    have hbit : w / 2048 % 2 = 1 := by omega
    rw [hbit, pc11_rt v h1 h2 w (by omega)]
    rfl
  | JumpSubroutineRegister baser =>
    have ha := Register.toNat_lt baser
    show Instruction.decode (16384 + baser.toNat * 64) = _
    set w := 16384 + baser.toNat * 64 with hw
    have hh : Instruction.get_header w = 4 := by
      unfold Instruction.get_header; omega
    rw [decode_header4 hh]
    have hbit : w / 2048 % 2 = 0 := by omega
    have h64 : w / 64 % 8 = baser.toNat := by omega
    rw [hbit, h64, Register.ofNat?_toNat]
    rfl
  | Load dr offset =>
    rcases offset with ⟨v⟩
    obtain ⟨h1, h2⟩ := h
    have ha := Register.toNat_lt dr
    show Instruction.decode (8192 + dr.toNat * 512 + (v % 512).toNat) = _
    set w := 8192 + dr.toNat * 512 + (v % 512).toNat with hw
    have hh : Instruction.get_header w = 2 := by
      unfold Instruction.get_header; omega
    rw [decode_header2 hh]
    have h512 : w / 512 % 8 = dr.toNat := by omega
    rw [h512, Register.ofNat?_toNat, pc9_rt v h1 h2 w (by omega)]
    rfl
  | LoadIndirect dr offset =>
    rcases offset with ⟨v⟩
    obtain ⟨h1, h2⟩ := h
    have ha := Register.toNat_lt dr
    show Instruction.decode (40960 + dr.toNat * 512 + (v % 512).toNat) = _
    set w := 40960 + dr.toNat * 512 + (v % 512).toNat with hw
    have hh : Instruction.get_header w = 10 := by
      unfold Instruction.get_header; omega
    rw [decode_header10 hh]
    have h512 : w / 512 % 8 = dr.toNat := by omega
    rw [h512, Register.ofNat?_toNat, pc9_rt v h1 h2 w (by omega)]
    rfl
  | LoadRegister dr baser offset =>
    rcases offset with ⟨v⟩
    obtain ⟨h1, h2⟩ := h
    have ha := Register.toNat_lt dr
    have hb := Register.toNat_lt baser
    show Instruction.decode
      (24576 + dr.toNat * 512 + baser.toNat * 64 + (v % 64).toNat) = _
    set w := 24576 + dr.toNat * 512 + baser.toNat * 64 + (v % 64).toNat
      with hw
    have hh : Instruction.get_header w = 6 := by
      unfold Instruction.get_header; omega
    rw [decode_header6 hh]
    have h512 : w / 512 % 8 = dr.toNat := by omega
    have h64 : w / 64 % 8 = baser.toNat := by omega
    rw [h512, h64, Register.ofNat?_toNat, Register.ofNat?_toNat,
      off6_rt v h1 h2 w (by omega)]
    rfl
  | LoadEffectiveAddress dr offset =>
    rcases offset with ⟨v⟩
    obtain ⟨h1, h2⟩ := h
    have ha := Register.toNat_lt dr
    show Instruction.decode (57344 + dr.toNat * 512 + (v % 512).toNat) = _
    set w := 57344 + dr.toNat * 512 + (v % 512).toNat with hw
    have hh : Instruction.get_header w = 14 := by
      unfold Instruction.get_header; omega
    rw [decode_header14 hh]
    have h512 : w / 512 % 8 = dr.toNat := by omega
    rw [h512, Register.ofNat?_toNat, pc9_rt v h1 h2 w (by omega)]
    rfl
  | Not dr sr =>
    have ha := Register.toNat_lt dr
    have hb := Register.toNat_lt sr
    show Instruction.decode (36864 + dr.toNat * 512 + sr.toNat * 64 + 63) = _
    set w := 36864 + dr.toNat * 512 + sr.toNat * 64 + 63 with hw
    have hh : Instruction.get_header w = 9 := by
      unfold Instruction.get_header; omega
    rw [decode_header9 hh]
    have h512 : w / 512 % 8 = dr.toNat := by omega
    have h64 : w / 64 % 8 = sr.toNat := by omega
    rw [h512, h64, Register.ofNat?_toNat, Register.ofNat?_toNat]
    rfl
  | ReturnToInterrupt => decide
  | Store sr offset =>
    rcases offset with ⟨v⟩
    obtain ⟨h1, h2⟩ := h
    have ha := Register.toNat_lt sr
    show Instruction.decode (12288 + sr.toNat * 512 + (v % 512).toNat) = _
    set w := 12288 + sr.toNat * 512 + (v % 512).toNat with hw
    have hh : Instruction.get_header w = 3 := by
      unfold Instruction.get_header; omega
    rw [decode_header3 hh]
    have h512 : w / 512 % 8 = sr.toNat := by omega
    rw [h512, Register.ofNat?_toNat, pc9_rt v h1 h2 w (by omega)]
    rfl
  | StoreIndirect sr offset =>
    rcases offset with ⟨v⟩
    obtain ⟨h1, h2⟩ := h
    have ha := Register.toNat_lt sr
    show Instruction.decode (45056 + sr.toNat * 512 + (v % 512).toNat) = _
    set w := 45056 + sr.toNat * 512 + (v % 512).toNat with hw
    have hh : Instruction.get_header w = 11 := by
      unfold Instruction.get_header; omega
    rw [decode_header11 hh]
    have h512 : w / 512 % 8 = sr.toNat := by omega
    rw [h512, Register.ofNat?_toNat, pc9_rt v h1 h2 w (by omega)]
    rfl
  | StoreRegister sr baser offset =>
    rcases offset with ⟨v⟩
    obtain ⟨h1, h2⟩ := h
    have ha := Register.toNat_lt sr
    have hb := Register.toNat_lt baser
    show Instruction.decode
      (28672 + sr.toNat * 512 + baser.toNat * 64 + (v % 64).toNat) = _
    set w := 28672 + sr.toNat * 512 + baser.toNat * 64 + (v % 64).toNat
      with hw
    have hh : Instruction.get_header w = 7 := by
      unfold Instruction.get_header; omega
    rw [decode_header7 hh]
    have h512 : w / 512 % 8 = sr.toNat := by omega
    have h64 : w / 64 % 8 = baser.toNat := by omega
    rw [h512, h64, Register.ofNat?_toNat, Register.ofNat?_toNat,
      off6_rt v h1 h2 w (by omega)]
    rfl
  | Trap vector =>
    have hvlt : vector < 256 := h
    show Instruction.decode (61440 + vector % 256) = _
    set w := 61440 + vector % 256 with hw
    have hh : Instruction.get_header w = 15 := by
      unfold Instruction.get_header; omega
    rw [decode_header15 hh]
    have hv : w % 256 = vector := by omega
    rw [hv]
  | Reserved => decide

/-- Witness for C1 at a concrete instruction: `ADDi R2, R5, #-7`. -/
theorem claim_C1_witness :
    (Instruction.AddImmediate .R2 .R5 ⟨-7⟩).WF ∧
      Instruction.decode (Instruction.AddImmediate .R2 .R5 ⟨-7⟩).encode =
        some (Instruction.AddImmediate .R2 .R5 ⟨-7⟩) :=
  ⟨by decide, claim_C1 (Instruction.AddImmediate .R2 .R5 ⟨-7⟩) (by decide)⟩

end LC3

namespace LC3

theorem imm5_val_ofInt (x : Int) :
    (Immediate5.ofInt x).val = i5_to_i8 (x % 32) := rfl

theorem off6_val_ofInt (x : Int) :
    (Offset6.ofInt x).val = i6_to_i8 (x % 64) := rfl

theorem pc9_val_ofInt (x : Int) :
    (PcOffset9.ofInt x).val = i9_to_i16 (x % 512) := rfl

theorem pc11_val_ofInt (x : Int) :
    (PcOffset11.ofInt x).val = i11_to_i16 (x % 2048) := rfl

/-- C2 as stated is false: the word 0x9000 has high nibble 0b1001 (not
0b1101) and decodes to `Not R0 R0`, but `encode` re-emits 0x903F — the
low six don't-care bits are forced to ones, not restored. -/
theorem claim_C2_counterexample :
    Instruction.get_header 36864 ≠ 13 ∧
      (Instruction.decode 36864).map Instruction.encode = some 36927 ∧
      (36927 : Nat) ≠ 36864 := by
  decide

/-- C2 amended: `encode (decode w) = w` for every 16-bit word `w` whose
high nibble is not 0b1101 and whose don't-care bits are in the canonical
form `encode` emits (zeros, except NOT's low six bits which are all
ones): register-form ADD/AND with bits 4-3 zero, JSRR with bits 10-9 and
5-0 zero, JMP with bits 11-9 and 5-0 zero, RTI with low twelve bits
zero, NOT with low six bits all ones, TRAP with bits 11-8 zero, and all
other opcodes unconditionally. -/
theorem claim_C2 (w : Nat) (hlt : w < 65536)
    (hres : Instruction.get_header w ≠ 13) (hcanon : canonicalWord w) :
    ∃ i, Instruction.decode w = some i ∧ i.encode = w := by
  obtain ⟨hc15, hc4, hc8, hc9, hc12, hcT⟩ := hcanon
  have h : Instruction.get_header w < 16 := Nat.mod_lt _ (by norm_num)
  have hget : Instruction.get_header w = w / 4096 := by
    unfold Instruction.get_header
    omega
  have hcase : Instruction.get_header w = 0 ∨ Instruction.get_header w = 1 ∨
      Instruction.get_header w = 2 ∨ Instruction.get_header w = 3 ∨
      Instruction.get_header w = 4 ∨ Instruction.get_header w = 5 ∨
      Instruction.get_header w = 6 ∨ Instruction.get_header w = 7 ∨
      Instruction.get_header w = 8 ∨ Instruction.get_header w = 9 ∨
      Instruction.get_header w = 10 ∨ Instruction.get_header w = 11 ∨
      Instruction.get_header w = 12 ∨ Instruction.get_header w = 14 ∨
      Instruction.get_header w = 15 := by
    omega
  obtain ⟨d, hd, hdn⟩ :=
    Register.ofNat?_of_lt (w / 512 % 8) (Nat.mod_lt _ (by norm_num))
  obtain ⟨s, hs, hsn⟩ :=
    Register.ofNat?_of_lt (w / 64 % 8) (Nat.mod_lt _ (by norm_num))
  obtain ⟨t, ht, htn⟩ :=
    Register.ofNat?_of_lt (w % 8) (Nat.mod_lt _ (by norm_num))
  rcases hcase with h' | h' | h' | h' | h' | h' | h' | h' | h' | h' | h' |
      h' | h' | h' | h'
  · -- BR
    rw [decode_header0 h']
    refine ⟨_, rfl, ?_⟩
    simp only [Instruction.encode]
    rw [flags_into_flags_ofNat (w / 512 % 8) (Nat.mod_lt _ (by norm_num)),
      pc9_val_ofInt, u16ToI16_emod512,
      i9_to_i16_bits (w % 512) (Nat.mod_lt _ (by norm_num))]
    rw [hget] at h'
    omega
  · -- ADD
    have hc := hc15 (Or.inl h')
    rw [decode_header1 h']
    unfold Instruction.decodeAddAnd
    rw [hd, hs, ht]
    by_cases himm : w / 32 % 2 = 1
    · rw [himm]
      refine ⟨_, rfl, ?_⟩
      simp only [Instruction.encode]
      rw [imm5_val_ofInt, u16ToI16_emod32,
        i5_to_i8_bits (w % 32) (Nat.mod_lt _ (by norm_num))]
      rw [hget] at h'
      omega
    · have himm0 : w / 32 % 2 = 0 := by omega
      rw [himm0]
      refine ⟨_, rfl, ?_⟩
      simp only [Instruction.encode]
      rw [hget] at h'
      rcases hc with hc | hc <;> omega
  · -- LD
    rw [decode_header2 h']
    refine ⟨.Load d (PcOffset9.ofInt (Instruction.u16ToI16 w)),
      by rw [hd]; rfl, ?_⟩
    simp only [Instruction.encode]
    rw [pc9_val_ofInt, u16ToI16_emod512,
      i9_to_i16_bits (w % 512) (Nat.mod_lt _ (by norm_num))]
    rw [hget] at h'
    omega
  · -- ST
    rw [decode_header3 h']
    refine ⟨.Store d (PcOffset9.ofInt (Instruction.u16ToI16 w)),
      by rw [hd]; rfl, ?_⟩
    simp only [Instruction.encode]
    rw [pc9_val_ofInt, u16ToI16_emod512,
      i9_to_i16_bits (w % 512) (Nat.mod_lt _ (by norm_num))]
    rw [hget] at h'
    omega
  · -- JSR / JSRR
    have hc := hc4 h'
    rw [decode_header4 h']
    by_cases hbit : w / 2048 % 2 = 1
    · rw [hbit]
      refine ⟨_, rfl, ?_⟩
      simp only [Instruction.encode]
      rw [pc11_val_ofInt, u16ToI16_emod2048,
        i11_to_i16_bits (w % 2048) (Nat.mod_lt _ (by norm_num))]
      rw [hget] at h'
      omega
    · have hbit0 : w / 2048 % 2 = 0 := by omega
      have hcc : w / 512 % 4 = 0 ∧ w % 64 = 0 := by
        rcases hc with hc | hc
        · omega
        · exact hc
      rw [hbit0]
      refine ⟨.JumpSubroutineRegister s, by rw [hs]; rfl, ?_⟩
      simp only [Instruction.encode]
      rw [hget] at h'
      omega
  · -- AND
    have hc := hc15 (Or.inr h')
    rw [decode_header5 h']
    unfold Instruction.decodeAddAnd
    rw [hd, hs, ht]
    by_cases himm : w / 32 % 2 = 1
    · rw [himm]
      refine ⟨_, rfl, ?_⟩
      simp only [Instruction.encode]
      rw [imm5_val_ofInt, u16ToI16_emod32,
        i5_to_i8_bits (w % 32) (Nat.mod_lt _ (by norm_num))]
      rw [hget] at h'
      omega
    · have himm0 : w / 32 % 2 = 0 := by omega
      rw [himm0]
      refine ⟨_, rfl, ?_⟩
      simp only [Instruction.encode]
      rw [hget] at h'
      rcases hc with hc | hc <;> omega
  · -- LDR
    rw [decode_header6 h']
    refine ⟨.LoadRegister d s (Offset6.ofInt (Instruction.u16ToI16 w)),
      by rw [hd, hs]; rfl, ?_⟩
    simp only [Instruction.encode]
    rw [off6_val_ofInt, u16ToI16_emod64,
      i6_to_i8_bits (w % 64) (Nat.mod_lt _ (by norm_num))]
    rw [hget] at h'
    omega
  · -- STR
    rw [decode_header7 h']
    refine ⟨.StoreRegister d s (Offset6.ofInt (Instruction.u16ToI16 w)),
      by rw [hd, hs]; rfl, ?_⟩
    simp only [Instruction.encode]
    rw [off6_val_ofInt, u16ToI16_emod64,
      i6_to_i8_bits (w % 64) (Nat.mod_lt _ (by norm_num))]
    rw [hget] at h'
    omega
  · -- RTI
    have hc := hc8 h'
    rw [decode_header8 h']
    refine ⟨_, rfl, ?_⟩
    simp only [Instruction.encode]
    rw [hget] at h'
    omega
  · -- NOT
    have hc := hc9 h'
    rw [decode_header9 h']
    refine ⟨.Not d s, by rw [hd, hs]; rfl, ?_⟩
    simp only [Instruction.encode]
    rw [hget] at h'
    omega
  · -- LDI
    rw [decode_header10 h']
    refine ⟨.LoadIndirect d (PcOffset9.ofInt (Instruction.u16ToI16 w)),
      by rw [hd]; rfl, ?_⟩
    simp only [Instruction.encode]
    rw [pc9_val_ofInt, u16ToI16_emod512,
      i9_to_i16_bits (w % 512) (Nat.mod_lt _ (by norm_num))]
    rw [hget] at h'
    omega
  · -- STI
    rw [decode_header11 h']
    refine ⟨.StoreIndirect d (PcOffset9.ofInt (Instruction.u16ToI16 w)),
      by rw [hd]; rfl, ?_⟩
    simp only [Instruction.encode]
    rw [pc9_val_ofInt, u16ToI16_emod512,
      i9_to_i16_bits (w % 512) (Nat.mod_lt _ (by norm_num))]
    rw [hget] at h'
    omega
  · -- JMP
    have hc := hc12 h'
    rw [decode_header12 h']
    refine ⟨.Jump s, by rw [hs]; rfl, ?_⟩
    simp only [Instruction.encode]
    rw [hget] at h'
    omega
  · -- LEA
    rw [decode_header14 h']
    refine ⟨.LoadEffectiveAddress d (PcOffset9.ofInt (Instruction.u16ToI16 w)),
      by rw [hd]; rfl, ?_⟩
    simp only [Instruction.encode]
    rw [pc9_val_ofInt, u16ToI16_emod512,
      i9_to_i16_bits (w % 512) (Nat.mod_lt _ (by norm_num))]
    rw [hget] at h'
    omega
  · -- TRAP
    have hc := hcT h'
    rw [decode_header15 h']
    refine ⟨_, rfl, ?_⟩
    simp only [Instruction.encode]
    rw [hget] at h'
    omega

/-- Witness for the amended C2 at 0x903F (`NOT R0 R0` in canonical
form). -/
theorem claim_C2_witness :
    ∃ i, Instruction.decode 36927 = some i ∧ i.encode = 36927 :=
  claim_C2 36927 (by norm_num) (by decide) (by decide)

/-- C3: `decode` is total on every input word: it always returns an
instruction, so the `panic!("Invalid opcode!")` arm and the register
conversion panic (both `none` in the embedding) are unreachable, and
every word with high nibble 0b1101 decodes to `Reserved`. -/
theorem claim_C3 (w : Nat) :
    (∃ i, Instruction.decode w = some i) ∧
      (Instruction.get_header w = 13 →
        Instruction.decode w = some .Reserved) :=
  ⟨decode_total w, decode_header13⟩

/-- Witness for C3 at 0xD000. -/
theorem claim_C3_witness :
    Instruction.decode 53248 = some Instruction.Reserved :=
  (claim_C3 53248).2 (by decide)

/-- C7: the claim is right about the intended 5-bit range and the code's
range check is wrong.  The `From` constructor round-trips -16 and 15
(and every value of [-16, 15]) unchanged, but it rejects nothing —
16 silently wraps to -16 — and `check_i5_range`, the declared range
check, asserts the 4-bit range `-8..=7`, so it panics on the in-range
values 15 and -16 (returns `false` in the embedding, meaning the
assertion fails). -/
theorem claim_C7 :
    (Immediate5.ofInt (-16)).val = -16 ∧ (Immediate5.ofInt 15).val = 15 ∧
      check_i5_range 15 = false ∧ check_i5_range (-16) = false ∧
      check_i5_range 7 = true ∧ check_i5_range (-8) = true ∧
      (Immediate5.ofInt 16).val = -16 := by
  decide

end LC3

namespace LC3

/-- The halted latch after one executed instruction: it is set exactly
by `Trap 0x25` and never cleared. -/
theorem evaluate_halted (m : Machine) (i : Instruction) (m' : Machine)
    (h : m.evaluate i = some m') :
    m'.halted = true ↔ (m.halted = true ∨ i = .Trap 0x25) := by
  cases i with
  | Add dr sr1 sr2 =>
    simp only [Machine.evaluate] at h
    injection h with h
    subst h
    simp [Machine.setReg, Machine.set_condition_code_based_on, Machine.writeMem]
  | AddImmediate dr sr1 imm =>
    simp only [Machine.evaluate] at h
    injection h with h
    subst h
    simp [Machine.setReg, Machine.set_condition_code_based_on, Machine.writeMem]
  | And dr sr1 sr2 =>
    simp only [Machine.evaluate] at h
    injection h with h
    subst h
    simp [Machine.setReg, Machine.set_condition_code_based_on, Machine.writeMem]
  | AndImmediate dr sr1 imm =>
    simp only [Machine.evaluate] at h
    injection h with h
    subst h
    simp [Machine.setReg, Machine.set_condition_code_based_on, Machine.writeMem]
  | Branch flags offset =>
    simp only [Machine.evaluate] at h
    split at h <;> (injection h with h; subst h; simp)
  | Jump baser =>
    simp only [Machine.evaluate] at h
    injection h with h
    subst h
    simp [Machine.setReg, Machine.set_condition_code_based_on, Machine.writeMem]
  | JumpSubroutine offset =>
    simp only [Machine.evaluate] at h
    injection h with h
    subst h
    simp [Machine.setReg, Machine.set_condition_code_based_on, Machine.writeMem]
  | JumpSubroutineRegister baser =>
    simp only [Machine.evaluate] at h
    injection h with h
    subst h
    simp [Machine.setReg, Machine.set_condition_code_based_on, Machine.writeMem]
  | Load dr offset =>
    simp only [Machine.evaluate] at h
    injection h with h
    subst h
    simp [Machine.setReg, Machine.set_condition_code_based_on, Machine.writeMem]
  | LoadIndirect dr offset =>
    simp only [Machine.evaluate] at h
    injection h with h
    subst h
    simp [Machine.setReg, Machine.set_condition_code_based_on, Machine.writeMem]
  | LoadRegister dr baser offset =>
    simp only [Machine.evaluate] at h
    injection h with h
    subst h
    simp [Machine.setReg, Machine.set_condition_code_based_on, Machine.writeMem]
  | LoadEffectiveAddress dr offset =>
    simp only [Machine.evaluate] at h
    injection h with h
    subst h
    simp [Machine.setReg, Machine.set_condition_code_based_on, Machine.writeMem]
  | Not dr sr =>
    simp only [Machine.evaluate] at h
    injection h with h
    subst h
    simp [Machine.setReg, Machine.set_condition_code_based_on, Machine.writeMem]
  | ReturnToInterrupt =>
    simp only [Machine.evaluate] at h
    injection h with h
    subst h
    simp [Machine.setReg, Machine.set_condition_code_based_on, Machine.writeMem]
  | Store sr offset =>
    simp only [Machine.evaluate] at h
    injection h with h
    subst h
    simp [Machine.setReg, Machine.set_condition_code_based_on, Machine.writeMem]
  | StoreIndirect sr offset =>
    simp only [Machine.evaluate] at h
    injection h with h
    subst h
    simp [Machine.setReg, Machine.set_condition_code_based_on, Machine.writeMem]
  | StoreRegister sr baser offset =>
    simp only [Machine.evaluate] at h
    injection h with h
    subst h
    simp [Machine.setReg, Machine.set_condition_code_based_on, Machine.writeMem]
  | Trap v =>
    simp only [Machine.evaluate] at h
    unfold Machine.handle_trap at h
    split at h
    · split at h
      · cases h
      · injection h with h
        subst h
        simp_all [Machine.setReg]
    · injection h with h
      subst h
      simp_all
    · simp only [Option.map_eq_some'] at h
      obtain ⟨out, -, rfl⟩ := h
      simp_all
    · injection h with h
      subst h
      simp_all
    · cases h
  | Reserved =>
    simp only [Machine.evaluate] at h
    injection h with h
    subst h
    simp [Machine.setReg, Machine.set_condition_code_based_on, Machine.writeMem]

/-- C5: `machine.rs` writes `R7 ← ip` *before* reading the base
register, so `JSRR R7` sets the new instruction pointer to the
post-fetch `ip`, not to R7's old value.  Evaluated at a machine with
`R7 = 0x1234` and post-fetch `ip = 0x3001`: the new `ip` is 0x3001. -/
theorem claim_C5 :
    ((Machine.evaluate
      { registers := fun r => if r = Register.R7 then 4660 else 0,
        memory := fun _ => 0, ip := 12289, condition_code := .Zero,
        halted := false, jumped := false, stdin := [], stdout := [] }
      (.JumpSubroutineRegister .R7)).map
        (fun m' => (m'.ip, m'.registers .R7)) = some (12289, 12289)) ∧
      (12289 : Nat) ≠ 4660 := by
  exact ⟨rfl, by decide⟩

/-- C6 as stated is false: the store branches of `evaluate` call
`set_condition_code_based_on(sr)`, so a store changes the condition
code.  Concretely: `R0 = 5`, condition code `Zero`; after `ST R0, #1`
the condition code is `Positive`. -/
theorem claim_C6_counterexample :
    ((Machine.evaluate
      { registers := fun _ => 5, memory := fun _ => 0, ip := 12289,
        condition_code := .Zero, halted := false, jumped := false,
        stdin := [], stdout := [] }
      (.Store .R0 ⟨1⟩)).map (fun m' => m'.condition_code) =
        some ConditionCode.Positive) ∧
      ConditionCode.Positive ≠ ConditionCode.Zero := by
  exact ⟨rfl, by decide⟩

/-- C6 amended: executing a store (ST, STI, STR) writes exactly one
memory cell and additionally sets the condition code from the stored
(source) register's signed value; registers, ip, the halted latch, the
jumped flag and the host streams are unchanged. -/
theorem claim_C6 :
    (∀ (m : Machine) (sr : Register) (off : PcOffset9) (m' : Machine),
        m.evaluate (.Store sr off) = some m' →
        m'.condition_code = ccOf (m.registers sr) ∧
        m'.registers = m.registers ∧ m'.ip = m.ip ∧ m'.halted = m.halted ∧
        m'.jumped = m.jumped ∧ m'.stdin = m.stdin ∧ m'.stdout = m.stdout ∧
        m'.memory = fun a =>
          if a = toU16 ((m.ip : Int) + off.val) then m.registers sr
          else m.memory a) ∧
    (∀ (m : Machine) (sr : Register) (off : PcOffset9) (m' : Machine),
        m.evaluate (.StoreIndirect sr off) = some m' →
        m'.condition_code = ccOf (m.registers sr) ∧
        m'.registers = m.registers ∧ m'.ip = m.ip ∧ m'.halted = m.halted ∧
        m'.jumped = m.jumped ∧ m'.stdin = m.stdin ∧ m'.stdout = m.stdout ∧
        m'.memory = fun a =>
          if a = toU16 (m.memory (toU16 ((m.ip : Int) + off.val))) then
            m.registers sr
          else m.memory a) ∧
    (∀ (m : Machine) (sr baser : Register) (off : Offset6) (m' : Machine),
        m.evaluate (.StoreRegister sr baser off) = some m' →
        m'.condition_code = ccOf (m.registers sr) ∧
        m'.registers = m.registers ∧ m'.ip = m.ip ∧ m'.halted = m.halted ∧
        m'.jumped = m.jumped ∧ m'.stdin = m.stdin ∧ m'.stdout = m.stdout ∧
        m'.memory = fun a =>
          if a = toU16 (toI16 (m.registers baser + off.val)) then
            m.registers sr
          else m.memory a) := by
  refine ⟨?_, ?_, ?_⟩
  · intro m sr off m' h
    simp only [Machine.evaluate] at h
    injection h with h
    subst h
    exact ⟨rfl, rfl, rfl, rfl, rfl, rfl, rfl, rfl⟩
  · intro m sr off m' h
    simp only [Machine.evaluate] at h
    injection h with h
    subst h
    exact ⟨rfl, rfl, rfl, rfl, rfl, rfl, rfl, rfl⟩
  · intro m sr baser off m' h
    simp only [Machine.evaluate] at h
    injection h with h
    subst h
    exact ⟨rfl, rfl, rfl, rfl, rfl, rfl, rfl, rfl⟩

/-- Witness for the amended C6: a store at the initial machine leaves
registers alone and sets the condition code from the source register. -/
theorem claim_C6_witness :
    ∃ m', (Machine.new [] 0 []).evaluate (.Store .R0 ⟨1⟩) = some m' ∧
      m'.condition_code = ccOf ((Machine.new [] 0 []).registers .R0) :=
  ⟨_, rfl, (claim_C6.1 (Machine.new [] 0 []) .R0 ⟨1⟩ _ rfl).1⟩

end LC3

namespace LC3

/-- C8 as stated is false: executing `Reserved` is not a fatal error —
no branch of `evaluate`'s dispatch matches it, so the machine state is
returned unchanged (still not halted) and execution silently
continues. -/
theorem claim_C8_counterexample :
    (Machine.new [] 0 []).evaluate .Reserved = some (Machine.new [] 0 []) ∧
      (Machine.new [] 0 []).halted = false :=
  ⟨rfl, rfl⟩

/-- C8 amended: `Reserved` and `ReturnFromInterrupt` are silently
ignored (the state is returned unchanged and execution continues), and
a TRAP whose vector is none of 0x20/0x21/0x22/0x25 (including the
spec's 0x23 IN) aborts via `todo!()` — a panic (`none`), not an error
result; `step`/`run_until_halt` return no error value at all. -/
theorem claim_C8 :
    (∀ m : Machine, m.evaluate .Reserved = some m) ∧
    (∀ m : Machine, m.evaluate .ReturnToInterrupt = some m) ∧
    (∀ (m : Machine) (v : Nat), v ≠ 0x20 → v ≠ 0x21 → v ≠ 0x22 →
      v ≠ 0x25 → m.evaluate (.Trap v) = none) := by
  refine ⟨fun m => rfl, fun m => rfl, ?_⟩
  intro m v h20 h21 h22 h25
  show m.handle_trap v = none
  unfold Machine.handle_trap
  split <;> first | rfl | (exfalso; omega)

/-- Witness for the amended C8: TRAP 0x23 (IN) panics. -/
theorem claim_C8_witness :
    (Machine.new [] 0 []).evaluate (.Trap 0x23) = none :=
  claim_C8.2.2 (Machine.new [] 0 []) 0x23 (by decide) (by decide) (by decide)
    (by decide)

/-- C10: a fetched zero word decodes to a Branch with an empty flag set
and offset 0, which is never taken, so the step only advances the
instruction pointer (wrapping at 2^16) and leaves registers, memory,
the condition code, the jumped flag and the halted latch unchanged. -/
theorem claim_C10 (m : Machine) (h : m.memory m.ip = 0) :
    Instruction.decode 0 = some (.Branch ⟨false, false, false⟩ ⟨0⟩) ∧
      m.step = some { m with ip := (m.ip + 1) % 65536 } := by
  constructor
  · decide
  · unfold Machine.step
    rw [h]
    show (Instruction.decode (toU16 0)).bind _ = _
    rw [show Instruction.decode (toU16 0) =
      some (.Branch ⟨false, false, false⟩ ⟨0⟩) from by decide]
    show Machine.evaluate { m with ip := (m.ip + 1) % 65536 }
      (.Branch ⟨false, false, false⟩ ⟨0⟩) =
        some { m with ip := (m.ip + 1) % 65536 }
    unfold Machine.evaluate
    cases hc : m.condition_code <;>
      simp [hc, ConditionCode.into_flags, DesiredConditionFlags.into_flags]

/-- Witness for C10 at the empty initial machine (all memory zero). -/
theorem claim_C10_witness :
    Instruction.decode 0 = some (.Branch ⟨false, false, false⟩ ⟨0⟩) ∧
      (Machine.new [] 0 []).step =
        some { Machine.new [] 0 [] with ip := 1 % 65536 } :=
  claim_C10 (Machine.new [] 0 []) rfl

end LC3

namespace LC3

/-- C4 as stated is false: JSR writes R7 but leaves the condition code
alone.  From the initial machine of a program whose first word is
`JSR #3`, one step gives `R7 = 0x3001 > 0` while the condition code is
still the initial `Zero`, not `Positive`. -/
theorem claim_C4_counterexample :
    ((Machine.new [] 12288 [.JumpSubroutine ⟨3⟩]).step).map
        (fun m' => (m'.registers .R7, m'.condition_code)) =
      some (12289, ConditionCode.Zero) ∧
      ccOf 12289 = ConditionCode.Positive ∧
      ConditionCode.Zero ≠ ConditionCode.Positive := by
  exact ⟨rfl, by decide, by decide⟩

/-- C4 amended: the condition code reflects the written register's
signed value (Negative if < 0, Zero if = 0, Positive if > 0) after
ADD, ADD-imm, AND, AND-imm, NOT, LD, LDI, LDR and LEA; JSR, JSRR and
TRAP 0x20 write a register (R7 resp. R0) but leave the condition code
unchanged. -/
theorem claim_C4 :
    (∀ (m : Machine) (dr sr1 sr2 : Register) (m' : Machine),
        m.evaluate (.Add dr sr1 sr2) = some m' →
        m'.condition_code = ccOf (m'.registers dr)) ∧
    (∀ (m : Machine) (dr sr1 : Register) (imm : Immediate5) (m' : Machine),
        m.evaluate (.AddImmediate dr sr1 imm) = some m' →
        m'.condition_code = ccOf (m'.registers dr)) ∧
    (∀ (m : Machine) (dr sr1 sr2 : Register) (m' : Machine),
        m.evaluate (.And dr sr1 sr2) = some m' →
        m'.condition_code = ccOf (m'.registers dr)) ∧
    (∀ (m : Machine) (dr sr1 : Register) (imm : Immediate5) (m' : Machine),
        m.evaluate (.AndImmediate dr sr1 imm) = some m' →
        m'.condition_code = ccOf (m'.registers dr)) ∧
    (∀ (m : Machine) (dr sr : Register) (m' : Machine),
        m.evaluate (.Not dr sr) = some m' →
        m'.condition_code = ccOf (m'.registers dr)) ∧
    (∀ (m : Machine) (dr : Register) (off : PcOffset9) (m' : Machine),
        m.evaluate (.Load dr off) = some m' →
        m'.condition_code = ccOf (m'.registers dr)) ∧
    (∀ (m : Machine) (dr : Register) (off : PcOffset9) (m' : Machine),
        m.evaluate (.LoadIndirect dr off) = some m' →
        m'.condition_code = ccOf (m'.registers dr)) ∧
    (∀ (m : Machine) (dr baser : Register) (off : Offset6) (m' : Machine),
        m.evaluate (.LoadRegister dr baser off) = some m' →
        m'.condition_code = ccOf (m'.registers dr)) ∧
    (∀ (m : Machine) (dr : Register) (off : PcOffset9) (m' : Machine),
        m.evaluate (.LoadEffectiveAddress dr off) = some m' →
        m'.condition_code = ccOf (m'.registers dr)) ∧
    (∀ (m : Machine) (off : PcOffset11) (m' : Machine),
        m.evaluate (.JumpSubroutine off) = some m' →
        m'.condition_code = m.condition_code) ∧
    (∀ (m : Machine) (baser : Register) (m' : Machine),
        m.evaluate (.JumpSubroutineRegister baser) = some m' →
        m'.condition_code = m.condition_code) ∧
    (∀ (m m' : Machine), m.evaluate (.Trap 0x20) = some m' →
        m'.condition_code = m.condition_code) := by
  refine ⟨?_, ?_, ?_, ?_, ?_, ?_, ?_, ?_, ?_, ?_, ?_, ?_⟩
  · intro m dr sr1 sr2 m' h
    simp only [Machine.evaluate] at h
    injection h with h
    subst h
    rfl
  · intro m dr sr1 imm m' h
    simp only [Machine.evaluate] at h
    injection h with h
    subst h
    rfl
  · intro m dr sr1 sr2 m' h
    simp only [Machine.evaluate] at h
    injection h with h
    subst h
    rfl
  · intro m dr sr1 imm m' h
    simp only [Machine.evaluate] at h
    injection h with h
    subst h
    rfl
  · intro m dr sr m' h
    simp only [Machine.evaluate] at h
    injection h with h
    subst h
    rfl
  · intro m dr off m' h
    simp only [Machine.evaluate] at h
    injection h with h
    subst h
    rfl
  · intro m dr off m' h
    simp only [Machine.evaluate] at h
    injection h with h
    subst h
    rfl
  · intro m dr baser off m' h
    simp only [Machine.evaluate] at h
    injection h with h
    subst h
    rfl
  · intro m dr off m' h
    simp only [Machine.evaluate] at h
    injection h with h
    subst h
    rfl
  · intro m off m' h
    simp only [Machine.evaluate] at h
    injection h with h
    subst h
    rfl
  · intro m baser m' h
    simp only [Machine.evaluate] at h
    injection h with h
    subst h
    rfl
  · intro m m' h
    simp only [Machine.evaluate, Machine.handle_trap] at h
    cases hs : m.stdin with
    | nil =>
      rw [hs] at h
      cases h
    | cons b rest =>
      rw [hs] at h
      injection h with h
      subst h
      rfl

/-- Witness for the amended C4: one ADD at the initial machine. -/
theorem claim_C4_witness :
    ∃ m', (Machine.new [] 0 []).evaluate (.Add .R0 .R1 .R2) = some m' ∧
      m'.condition_code = ccOf (m'.registers .R0) :=
  ⟨_, rfl, claim_C4.1 (Machine.new [] 0 []) .R0 .R1 .R2 _ rfl⟩

theorem run_until_halt_halted (fuel : Nat) (m : Machine)
    (hm : m.halted = true) :
    Machine.run_until_halt fuel m = some m := by
  unfold Machine.run_until_halt
  rw [hm]
  rfl

theorem run_until_halt_succ (n : Nat) (m : Machine) (hm : m.halted = false) :
    Machine.run_until_halt (n + 1) m =
      m.step.bind (Machine.run_until_halt n) := by
  conv_lhs => unfold Machine.run_until_halt
  rw [hm]
  rfl

theorem run_until_halt_zero (m : Machine) (hm : m.halted = false) :
    Machine.run_until_halt 0 m = none := by
  unfold Machine.run_until_halt
  rw [hm]
  rfl

/-- C9: the halt protocol.  (a) One executed instruction leaves the
halted latch set exactly when it was already set or the instruction is
`Trap 0x25`, i.e. no other instruction sets (or clears) it.  (b) From a
running state whose fetched word decodes to `Trap 0x25`, the step
succeeds, latches `halted`, and `run_until_halt` then returns for every
fuel.  (c) Conversely, whenever `run_until_halt` returns from a running
state, the final state is halted and some reachable intermediate
running state fetched a word decoding to `Trap 0x25` — a Trap 0x25 was
executed. -/
theorem claim_C9 :
    (∀ (m : Machine) (i : Instruction) (m' : Machine),
        m.evaluate i = some m' →
        (m'.halted = true ↔ (m.halted = true ∨ i = .Trap 0x25))) ∧
    (∀ m : Machine, m.halted = false →
        Instruction.decode (toU16 (m.memory m.ip)) = some (.Trap 0x25) →
        ∃ m', m.step = some m' ∧ m'.halted = true ∧
          ∀ fuel, Machine.run_until_halt fuel m' = some m') ∧
    (∀ (fuel : Nat) (m mf : Machine), m.halted = false →
        Machine.run_until_halt fuel m = some mf →
        mf.halted = true ∧
          ∃ (k : Nat) (m₁ : Machine), Machine.stepN k m = some m₁ ∧
            m₁.halted = false ∧
            Instruction.decode (toU16 (m₁.memory m₁.ip)) =
              some (.Trap 0x25)) := by
  refine ⟨evaluate_halted, ?_, ?_⟩
  · intro m hm hdec
    refine ⟨{ m with ip := (m.ip + 1) % 65536, halted := true }, ?_, rfl, ?_⟩
    · simp only [Machine.step]
      rw [hdec]
      rfl
    · intro fuel
      exact run_until_halt_halted fuel _ rfl
  · intro fuel
    induction fuel with
    | zero =>
      intro m mf hm hrun
      rw [run_until_halt_zero m hm] at hrun
      cases hrun
    | succ n ih =>
      intro m mf hm hrun
      rw [run_until_halt_succ n m hm] at hrun
      obtain ⟨m', hstep, hrun'⟩ := Option.bind_eq_some.mp hrun
      have hstep' := hstep
      simp only [Machine.step] at hstep'
      obtain ⟨i, hdec, heval⟩ := Option.bind_eq_some.mp hstep'
      by_cases hh : m'.halted = true
      · have hiff := evaluate_halted _ i m' heval
        have hi : i = .Trap 0x25 := by
          rcases hiff.mp hh with h' | h'
          · rw [show ({ m with ip := (m.ip + 1) % 65536 } : Machine).halted =
              m.halted from rfl, hm] at h'
            cases h'
          · exact h'
        refine ⟨?_, 0, m, rfl, hm, ?_⟩
        · rw [run_until_halt_halted n m' hh] at hrun'
          injection hrun' with hrun'
          rw [← hrun']
          exact hh
        · rw [hi] at hdec
          exact hdec
      · have hh' : m'.halted = false := by
          cases hhh : m'.halted
          · rfl
          · exact absurd hhh hh
        obtain ⟨hmf, k, m₁, hsN, hm₁, hdec₁⟩ := ih m' mf hh' hrun'
        refine ⟨hmf, k + 1, m₁, ?_, hm₁, hdec₁⟩
        unfold Machine.stepN
        rw [hstep]
        exact hsN

/-- Witness for C9 at a one-instruction HALT program: the step latches
`halted` and `run_until_halt` returns. -/
theorem claim_C9_witness :
    ∃ m', (Machine.new [] 0 [Instruction.trap_halt]).step = some m' ∧
      m'.halted = true ∧
      ∀ fuel, Machine.run_until_halt fuel m' = some m' :=
  claim_C9.2.1 (Machine.new [] 0 [Instruction.trap_halt]) rfl (by decide)

end LC3
